import Mathlib

/-!
Verification of the core of a BFT-replicated transaction ledger node
(parallel transaction validation, validator-set elections, crash recovery).

The definitions below are a shallow embedding of the node's source code:
  * `run_recover` and the storage queries it composes,
  * the `ValidatorElection` transaction class (vote counting, conclusion
    detection, validator-set updates, status query),
  * the `ParallelValidator` coordinator and `ValidationWorker`.

Modelling conventions:
  * machine integers are `Nat`/`Int`;
  * the backend storage is a `State` record; each storage query that lives
    outside the embedded source files is modelled from the specification
    and marked `Modelled from the spec:` in its doc comment;
  * external cryptographic codecs (base58 / base64 / hex) are bijective
    string encodings; they are modelled as deterministic injective string
    functions, since no property proved here depends on their shape;
  * the source compares integers against the Python float expressions
    `(1/3)*total` and `(2/3)*total`; these are embedded in exact rational
    arithmetic, rendered as integer cross-multiplications so that every
    definition stays kernel-computable.  The claim theorems state the
    comparisons in `ℚ` and the proofs bridge the two forms.
-/

/-- One transaction output: recipient public keys and a token amount. -/
structure Output where
  public_keys : List String
  amount : Nat
deriving DecidableEq

/-- One transaction input: the consumed output (`fulfills` is `none` for
CREATE-like operations) and the signing public keys. -/
structure Input where
  fulfills : Option (String × Nat)
  owners_before : List String
deriving DecidableEq

/-- The `asset.data` payload of a VALIDATOR_ELECTION transaction:
the proposed validator `{public_key, power, node_id}`. -/
structure AssetData where
  public_key : String
  power : Int
  node_id : String
deriving DecidableEq

instance : Inhabited AssetData := ⟨⟨"", 0, ""⟩⟩

/-- A transaction.  `asset_id` models `asset['id']` (present on
TRANSFER / VALIDATOR_ELECTION_VOTE), `asset_data` models
`asset['data']` of an election. -/
structure Tx where
  id : String
  operation : String
  inputs : List Input
  outputs : List Output
  asset_id : Option String
  asset_data : Option AssetData
  metadata : Option String
deriving DecidableEq

def CREATE_OP : String := "CREATE"
def TRANSFER_OP : String := "TRANSFER"
def VALIDATOR_ELECTION_OP : String := "VALIDATOR_ELECTION"
def VALIDATOR_ELECTION_VOTE_OP : String := "VALIDATOR_ELECTION_VOTE"

/-- A validator-set entry `{public_key, voting_power}`. -/
structure ValEntry where
  public_key : String
  voting_power : Int
deriving DecidableEq

/-- A validator-set snapshot, keyed by block height and carrying the id of
the election that approved it. -/
structure Snapshot where
  height : Nat
  validators : List ValEntry
  election_id : String
deriving DecidableEq

/-- A committed block `{height, app_hash, transactions}`. -/
structure Block where
  height : Nat
  app_hash : String
  transactions : List String
deriving DecidableEq

/-- The pre-commit intent record `{height, transactions}` (the singleton
`commit_id = PRE_COMMIT_ID` key is left implicit). -/
structure PreCommit where
  height : Nat
  transactions : List String
deriving DecidableEq

/-- The durable storage reachable through the backend query interface. -/
structure State where
  txs : List Tx
  blocks : List Block
  snapshots : List Snapshot
  pre_commit : Option PreCommit
deriving DecidableEq

/-- Modelled from the spec: backend query `get_transaction(id)` — point
lookup of a committed transaction by id (`transactions` collection). -/
def State.get_transaction (s : State) (txid : String) : Option Tx :=
  s.txs.find? (fun t => t.id == txid)

/-- Modelled from the spec: backend query `get_pre_commit_state` — the
singleton pre-commit intent record, absent on a fresh node. -/
def State.get_pre_commit_state (s : State) : Option PreCommit :=
  s.pre_commit

/-- Modelled from the spec: backend query `get_latest_block()` — the
committed block of greatest height, `none` when no block exists. -/
def State.get_latest_block (s : State) : Option Block :=
  s.blocks.foldl
    (fun best b =>
      match best with
      | none => some b
      | some x => if x.height < b.height then some b else some x)
    none

/-- Modelled from the spec: backend query `delete_transactions(ids)` —
removes the listed transactions from the `transactions` collection. -/
def State.delete_transactions (s : State) (ids : List String) : State :=
  { s with txs := s.txs.filter (fun t => ¬ t.id ∈ ids) }

/-- `run_recover` (commands/bigchaindb.py): reconcile the pre-commit intent
record with the committed block log after an unclean shutdown. -/
def run_recover (s : State) : State :=
  match s.get_pre_commit_state with
  | none => s
  | some pre_commit =>
    match s.get_latest_block with
    | none => s
    | some latest_block =>
      if latest_block.height < pre_commit.height then
        s.delete_transactions pre_commit.transactions
      else s

/-- `find?` over a filter that drops exactly the transactions whose id lies
in `ids`: lookups of deleted ids return `none`, all others are unchanged. -/
theorem find_filter_delete (l : List Tx) (ids : List String) (q : String) :
    (l.filter (fun t => ¬ t.id ∈ ids)).find? (fun t => t.id == q) =
      if q ∈ ids then none else l.find? (fun t => t.id == q) := by
  induction l with
  | nil => simp
  | cons t l ih =>
    by_cases ht : t.id ∈ ids
    · by_cases hq : t.id = q
      · subst hq
        simp only [List.filter_cons]
        rw [if_neg (by simpa using ht), ih, if_pos ht, if_pos ht]
      · simp only [List.filter_cons]
        rw [if_neg (by simpa using ht)]
        rw [ih]
        by_cases hqids : q ∈ ids
        · simp [hqids]
        · simp [hqids, List.find?_cons, beq_eq_false_iff_ne.mpr hq]
    · by_cases hq : t.id = q
      · subst hq
        simp [List.filter_cons, ht, List.find?_cons]
      · simp only [List.filter_cons]
        rw [if_pos (by simpa using ht)]
        rw [List.find?_cons_of_neg _ (by simpa using hq), ih,
          List.find?_cons_of_neg _ (by simpa using hq)]

/-- Transaction lookup after `delete_transactions`. -/
theorem get_transaction_delete (s : State) (ids : List String) (q : String) :
    (s.delete_transactions ids).get_transaction q =
      if q ∈ ids then none else s.get_transaction q := by
  simpa [State.delete_transactions, State.get_transaction] using
    find_filter_delete s.txs ids q

/-- C4: when both a pre-commit record and a latest committed block exist,
`run_recover` deletes exactly the pre-commit record's transactions when
`pre_commit.height > latest_block.height` (transactions not listed remain
retrievable) and performs no deletion when
`pre_commit.height ≤ latest_block.height`. -/
theorem run_recover_reconciles (s : State) (p : PreCommit) (b : Block)
    (hp : s.get_pre_commit_state = some p) (hb : s.get_latest_block = some b) :
    (b.height < p.height →
      run_recover s = s.delete_transactions p.transactions ∧
      ∀ q : String,
        (run_recover s).get_transaction q =
          if q ∈ p.transactions then none else s.get_transaction q) ∧
    (p.height ≤ b.height → run_recover s = s) := by
  constructor
  · intro hlt
    have hrw : run_recover s = s.delete_transactions p.transactions := by
      simp only [run_recover, hp, hb]
      rw [if_pos hlt]
    exact ⟨hrw, fun q => by rw [hrw, get_transaction_delete]⟩
  · intro hle
    simp only [run_recover, hp, hb]
    rw [if_neg (by omega)]

def c4_tx1 : Tx :=
  { id := "t1", operation := CREATE_OP, inputs := [⟨none, ["alice"]⟩],
    outputs := [⟨["alice"], 1⟩], asset_id := none, asset_data := none,
    metadata := none }

def c4_tx2 : Tx :=
  { id := "t2", operation := CREATE_OP, inputs := [⟨none, ["bob"]⟩],
    outputs := [⟨["bob"], 1⟩], asset_id := none, asset_data := none,
    metadata := none }

/-- Storage holding block 9 with `t1` committed, a pre-commit record at
height 10 listing `t2`, and both transactions stored. -/
def c4_state : State :=
  { txs := [c4_tx1, c4_tx2],
    blocks := [⟨9, "apphash", ["t1"]⟩],
    snapshots := [],
    pre_commit := some ⟨10, ["t2"]⟩ }

/-- Witness for C4: recovery on the concrete crashed state deletes `t2` and
keeps `t1`. -/
theorem run_recover_reconciles_witness :
    (run_recover c4_state).get_transaction "t2" =
      (if "t2" ∈ ["t2"] then none else c4_state.get_transaction "t2") ∧
    (run_recover c4_state).get_transaction "t1" =
      (if "t1" ∈ ["t2"] then none else c4_state.get_transaction "t1") :=
  ⟨((run_recover_reconciles c4_state ⟨10, ["t2"]⟩ ⟨9, "apphash", ["t1"]⟩
      (by decide) (by decide)).1 (by decide)).2 "t2",
   ((run_recover_reconciles c4_state ⟨10, ["t2"]⟩ ⟨9, "apphash", ["t1"]⟩
      (by decide) (by decide)).1 (by decide)).2 "t1"⟩

/-- C10: when a pre-commit record exists but no committed block exists at
all, `run_recover` performs no deletion and leaves storage unchanged. -/
theorem run_recover_no_block (s : State) (p : PreCommit)
    (hp : s.get_pre_commit_state = some p) (hb : s.get_latest_block = none) :
    run_recover s = s := by
  simp only [run_recover, hp, hb]

def c10_state : State :=
  { txs := [c4_tx2], blocks := [], snapshots := [],
    pre_commit := some ⟨5, ["t2"]⟩ }

/-- Witness for C10: the concrete blockless state is left untouched. -/
theorem run_recover_no_block_witness : run_recover c10_state = c10_state :=
  run_recover_no_block c10_state ⟨5, ["t2"]⟩ (by decide) (by decide)

/-! ### Python dictionaries

The source manipulates Python `dict`s (insertion-ordered association maps
compared by content).  They are modelled as association lists whose insert
updates an existing key in place; equality of dictionaries is mutual
lookup agreement. -/

/-- Python `d[k]` lookup (as `Option`). -/
def dlookup {β : Type} (d : List (String × β)) (k : String) : Option β :=
  (d.find? (fun p => p.1 == k)).map (fun p => p.2)

/-- Python `d[k] = v`: update an existing key in place, else append. -/
def dictInsert {β : Type} (d : List (String × β)) (k : String) (v : β) :
    List (String × β) :=
  if d.any (fun p => p.1 == k) then
    d.map (fun p => if p.1 == k then (k, v) else p)
  else d ++ [(k, v)]

/-- Python `d1 == d2` on dictionaries: same key/value associations. -/
def dictEq {β : Type} [BEq β] (d1 d2 : List (String × β)) : Bool :=
  d1.all (fun p => dlookup d2 p.1 == some p.2) &&
    d2.all (fun p => dlookup d1 p.1 == some p.2)

/-- A validator dictionary: `public_key ↦ voting_power`. -/
def VDict : Type := List (String × Int)

/-- Python `sum(d.values())`. -/
def sumValues (d : VDict) : Int :=
  (List.map (fun p => p.2) d).sum

/-! ### External codecs

The node derives the election public key with `base58(hex_decode(id))` and
decodes Tendermint validator keys with `base64`/`ed25519` codecs.  These are
external libraries; they are modelled as deterministic injective string
functions (their concrete shape is irrelevant to every property proved
here). -/

/-- `ValidatorElection.to_public_key`: the deterministic election public key
`base58(hex_decode(election_id))`.  Modelled from the spec: the external
base58/hex codec chain is modelled as an injective tagging. -/
def ValidatorElection.to_public_key (election_id : String) : String :=
  "b58." ++ election_id

/-- Modelled from the spec: external base64 key codec, a bijective encoding
modelled as the identity. -/
def key_from_base64 (k : String) : String := k

/-- Modelled from the spec: external ed25519/base58 public-key codec, a
bijective encoding modelled as the identity. -/
def public_key_from_ed25519_key (k : String) : String := k

/-! ### Validator-set snapshots -/

/-- Modelled from the spec: the snapshot effective for `height` is the
stored snapshot with the greatest height `≤ height`; with `height = none`
the latest stored snapshot (the latest validator-set change). -/
def State.effective_snapshot (s : State) (height : Option Nat) :
    Option Snapshot :=
  s.snapshots.foldl
    (fun best snap =>
      if (match height with | none => true | some h => snap.height ≤ h) then
        match best with
        | none => some snap
        | some x => if x.height < snap.height then some snap else some x
      else best)
    none

/-- Modelled from the spec: backend query `get_validators(height)` — the
validator set effective at `height` (the latest one when `height = none`). -/
def State.get_validators (s : State) (height : Option Nat) : List ValEntry :=
  (Option.map (fun snap => snap.validators) (s.effective_snapshot height)).getD []

/-- `ValidatorElection.get_validator_change` /
Modelled from the spec: backend query for the latest change to the
validator set (the snapshot of greatest height). -/
def State.get_validator_change (s : State) : Option Snapshot :=
  s.effective_snapshot none

/-- Modelled from the spec: backend query
`get_validators_by_election_id(id)` — the stored validator set whose
`election_id` matches, `none` if no snapshot carries the id. -/
def State.get_validators_by_election_id (s : State) (election_id : String) :
    Option Snapshot :=
  s.snapshots.find? (fun snap => snap.election_id == election_id)

/-- Modelled from the spec: backend query `get_block_containing_tx(id)` —
the height of the committed block listing the transaction id. -/
def State.get_block_containing_tx (s : State) (txid : String) : Option Nat :=
  Option.map (fun b => b.height)
    (s.blocks.find? (fun b => txid ∈ b.transactions))

/-- Modelled from the spec: backend query
`store_validator_set(height, validators, election_id)` — append a new
validator-set snapshot (snapshots are append-only). -/
def State.store_validator_set (s : State) (height : Nat)
    (validators : List ValEntry) (election_id : String) : State :=
  { s with snapshots := s.snapshots ++ [⟨height, validators, election_id⟩] }

/-- Modelled from the spec: backend query
`get_asset_tokens_for_public_key(asset_id, pk)` — the committed
transactions under `asset.id = asset_id` having `pk` among some output's
public keys (the two persisted indexes of the `transactions` collection). -/
def State.get_asset_tokens_for_public_key (s : State) (asset_id : String)
    (pk : String) : List Tx :=
  s.txs.filter
    (fun t => t.asset_id == some asset_id &&
      t.outputs.any (fun o => o.public_keys.contains pk))

/-! ### The `ValidatorElection` transaction class -/

/-- `ValidatorElection.get_validators` (classmethod): the validator set
effective at `height` as a `public_key ↦ voting_power` dictionary, with the
stored keys run through the external codecs. -/
def ValidatorElection.get_validators_dict (s : State) (height : Option Nat) :
    VDict :=
  (s.get_validators height).foldl
    (fun validators v =>
      dictInsert validators
        (public_key_from_ed25519_key (key_from_base64 v.public_key))
        v.voting_power)
    []

/-- The voter dictionary built by `ValidatorElection.is_same_topology` from
the election outputs; `none` models the early `return False` on an output
with more than one public key.  (An output's single key is taken with
`headI`: election outputs are schema-guaranteed non-empty.) -/
def votersOfOutputs : List Output → VDict → Option VDict
  | [], voters => some voters
  | voter :: rest, voters =>
    if voter.public_keys.length > 1 then none
    else votersOfOutputs rest
      (dictInsert voters voter.public_keys.headI (voter.amount : Int))

/-- `ValidatorElection.is_same_topology`: the election outputs assign one
output per current validator with amount equal to its voting power. -/
def ValidatorElection.is_same_topology (current_topology : VDict)
    (election_topology : List Output) : Bool :=
  match votersOfOutputs election_topology [] with
  | none => false
  | some voters => dictEq current_topology voters

/-- `ValidatorElection.count_votes`: total the amounts of
VALIDATOR_ELECTION_VOTE outputs whose `public_keys` is exactly
`[election_pk]`. -/
def ValidatorElection.count_votes (election_pk : String)
    (transactions : List Tx) : Nat :=
  transactions.foldl
    (fun votes txn =>
      if txn.operation = VALIDATOR_ELECTION_VOTE_OP then
        txn.outputs.foldl
          (fun v output =>
            if output.public_keys.length = 1 ∧
                output.public_keys = [election_pk] then
              v + output.amount
            else v)
          votes
      else votes)
    0

/-- `ValidatorElection.get_commited_votes`: count the committed votes for
this election among the stored tokens assigned to the election key. -/
def ValidatorElection.get_commited_votes (s : State) (self : Tx)
    (election_pk : String) : Nat :=
  ValidatorElection.count_votes election_pk
    (s.get_asset_tokens_for_public_key self.id election_pk)

/-- `ValidatorElection.has_concluded`: the election concludes iff its output
topology still equals the current validator set, the committed votes are
below the two-thirds supermajority, and the committed votes together with
this block's new votes reach it.  The source compares against the Python
float `(2/3)*total_votes`; this is embedded in exact rational arithmetic,
cross-multiplied (`3·votes < 2·total`) to stay kernel-computable. -/
def ValidatorElection.has_concluded (s : State) (election_id : String)
    (current_votes : List Tx) (height : Option Nat) : Option Tx :=
  match s.get_transaction election_id with
  | none => none
  | some election =>
    let election_pk := ValidatorElection.to_public_key election.id
    let votes_commited :=
      ValidatorElection.get_commited_votes s election election_pk
    let votes_current :=
      ValidatorElection.count_votes election_pk current_votes
    let current_validators :=
      ValidatorElection.get_validators_dict s height
    if ValidatorElection.is_same_topology current_validators
        election.outputs then
      let total_votes := sumValues current_validators
      if 3 * (votes_commited : Int) < 2 * total_votes ∧
          3 * ((votes_commited : Int) + (votes_current : Int)) ≥
            2 * total_votes then
        some election
      else none
    else none

/-- The validation errors raised by `ValidatorElection.validate`. -/
inductive ElectionError where
  | duplicateTransaction
  | invalidSignature
  | multipleInputsError
  | invalidPowerChange
  | invalidProposer
  | unequalValidatorSet
deriving DecidableEq

/-- `ValidatorElection.validate`.  Cryptographic fulfillment verification
(`self.inputs_valid`) is an external primitive, passed in as the boolean
`inputs_valid`.  The source raises `MultipleInputsError` unless there is
exactly one input with exactly one owner, then checks the proposed power
against the Python float `(1/3)*sum(current_validators.values())` —
embedded in exact rational arithmetic, cross-multiplied
(`3·power ≥ total`).  (`asset['data']` is schema-guaranteed on an
election; a missing one is read as the default proposal.) -/
def ValidatorElection.validate (s : State) (inputs_valid : Bool) (self : Tx)
    (current_transactions : List Tx) : Except ElectionError Tx :=
  if (s.get_transaction self.id).isSome ∨
      current_transactions.any (fun txn => txn.id == self.id) then
    .error .duplicateTransaction
  else if ¬ inputs_valid then .error .invalidSignature
  else
    let current_validators := ValidatorElection.get_validators_dict s none
    match self.inputs with
    | [input0] =>
      match input0.owners_before with
      | [election_initiator_node_pub_key] =>
        if 3 * (self.asset_data.getD default).power ≥
            sumValues current_validators then
          .error .invalidPowerChange
        else if ¬ current_validators.any
            (fun p => p.1 == election_initiator_node_pub_key) then
          .error .invalidProposer
        else if ¬ ValidatorElection.is_same_topology current_validators
            self.outputs then
          .error .unequalValidatorSet
        else .ok self
      | _ => .error .multipleInputsError
    | _ => .error .multipleInputsError

/-- The election statuses. -/
def ValidatorElection.ONGOING : String := "ongoing"

def ValidatorElection.CONCLUDED : String := "concluded"

def ValidatorElection.INCONCLUSIVE : String := "inconclusive"

/-- `ValidatorElection.get_status`: CONCLUDED when a snapshot carries this
election's id; otherwise compare the latest validator-change height with
the height of the block containing the election.  (The source indexes both
lookups unconditionally; the embedding reads absent ones as height 0 — the
status theorem assumes both exist, as the source does.) -/
def ValidatorElection.get_status (s : State) (self : Tx) : String :=
  if (s.get_validators_by_election_id self.id).isSome then
    ValidatorElection.CONCLUDED
  else
    let latest_change_height :=
      (Option.map (fun snap => snap.height) s.get_validator_change).getD 0
    let election_height := (s.get_block_containing_tx self.id).getD 0
    if latest_change_height ≥ election_height then
      ValidatorElection.INCONCLUSIVE
    else ValidatorElection.ONGOING

/-! ### Validator-set updates -/

/-- Modelled from the spec: `new_validator_set` (validator_utils) applies
the election's `{public_key, power, node_id}` delta to the current set —
updating the proposed node's power in place, or inserting it.  (Removal
happens through the caller's pruning of zero-power entries.) -/
def new_validator_set (current : List ValEntry) (updates : List AssetData) :
    List ValEntry :=
  updates.foldl
    (fun validators u =>
      if validators.any (fun v => v.public_key == u.public_key) then
        validators.map
          (fun v =>
            if v.public_key == u.public_key then
              ⟨u.public_key, u.power⟩
            else v)
      else validators ++ [⟨u.public_key, u.power⟩])
    current

/-- A validator update in the encoding returned to the BFT engine.
Modelled from the spec: `{public_key: {type, value}, power}`. -/
structure EncodedValidator where
  public_key : String
  power : Int
deriving DecidableEq

/-- Modelled from the spec: `encode_pk_to_base16` re-encodes the proposal's
public key to base16 — an external bijective codec, modelled as the
identity. -/
def encode_pk_to_base16 (d : AssetData) : AssetData := d

/-- Modelled from the spec: `encode_validator` packs a proposal into the
validator-update encoding expected by the BFT engine. -/
def encode_validator (d : AssetData) : EncodedValidator :=
  ⟨d.public_key, d.power⟩

/-- The loop of `ValidatorElection.get_validator_update` over the block's
delivered transactions, carrying the `votes` dictionary
(`election_id ↦ its votes so far`).  Vote transactions are recognised by
operation (the source's `isinstance(txn, ValidatorElectionVote)`); a vote's
`asset['id']` is schema-guaranteed.  On the first conclusion the loop
stores the pruned new validator set under `new_height + 1` and returns the
single encoded update; afterwards it returns without reading further
votes. -/
def get_validator_update_loop (s : State) (new_height : Nat)
    (votes : List (String × List Tx)) :
    List Tx → State × List EncodedValidator
  | [] => (s, [])
  | txn :: rest =>
    if txn.operation = VALIDATOR_ELECTION_VOTE_OP then
      let election_id := txn.asset_id.getD ""
      let election_votes := (dlookup votes election_id).getD [] ++ [txn]
      let votes' := dictInsert votes election_id election_votes
      match ValidatorElection.has_concluded s election_id election_votes
          (some new_height) with
      | some election =>
        let validator_updates := [election.asset_data.getD default]
        let curr_validator_set := s.get_validators (some new_height)
        let updated_validator_set :=
          (new_validator_set curr_validator_set validator_updates).filter
            (fun v => 0 < v.voting_power)
        (s.store_validator_set (new_height + 1) updated_validator_set
            election.id,
          [encode_validator
            (encode_pk_to_base16 (election.asset_data.getD default))])
      | none => get_validator_update_loop s new_height votes' rest
    else get_validator_update_loop s new_height votes rest

/-- `ValidatorElection.get_validator_update`: scan the block's delivered
transactions for a concluding election. -/
def ValidatorElection.get_validator_update (s : State) (new_height : Nat)
    (txns : List Tx) : State × List EncodedValidator :=
  get_validator_update_loop s new_height [] txns

/-! ### Exact-arithmetic bridges

The source's float thresholds `(2/3)*total` and `(1/3)*total`, embedded
cross-multiplied over `Int`, coincide with the exact rational
comparisons. -/

/-- `votes < (2/3)·total` in `ℚ` is the embedded `3·votes < 2·total`. -/
theorem two_thirds_lt_iff (a : Nat) (t : Int) :
    ((a : ℚ) < 2 / 3 * (t : ℚ)) ↔ 3 * (a : Int) < 2 * t := by
  rw [show (2 / 3 : ℚ) * (t : ℚ) = 2 * (t : ℚ) / 3 by ring,
    lt_div_iff₀ (by norm_num : (0 : ℚ) < 3)]
  constructor
  · intro h
    have h2 : ((3 * (a : Int) : Int) : ℚ) < ((2 * t : Int) : ℚ) := by
      push_cast
      linarith
    exact_mod_cast h2
  · intro h
    have h2 : ((3 * (a : Int) : Int) : ℚ) < ((2 * t : Int) : ℚ) := by
      exact_mod_cast h
    push_cast at h2
    linarith

/-- `votes ≥ (2/3)·total` in `ℚ` is the embedded `3·votes ≥ 2·total`. -/
theorem two_thirds_ge_iff (a b : Nat) (t : Int) :
    ((a : ℚ) + (b : ℚ) ≥ 2 / 3 * (t : ℚ)) ↔
      3 * ((a : Int) + (b : Int)) ≥ 2 * t := by
  rw [show (2 / 3 : ℚ) * (t : ℚ) = 2 * (t : ℚ) / 3 by ring,
    ge_iff_le, div_le_iff₀ (by norm_num : (0 : ℚ) < 3)]
  constructor
  · intro h
    have h2 : ((2 * t : Int) : ℚ) ≤ ((3 * ((a : Int) + (b : Int)) : Int) : ℚ) := by
      push_cast
      linarith
    exact_mod_cast h2
  · intro h
    have h2 : ((2 * t : Int) : ℚ) ≤ ((3 * ((a : Int) + (b : Int)) : Int) : ℚ) := by
      exact_mod_cast h
    push_cast at h2
    linarith

/-- `power ≥ (1/3)·total` in `ℚ` is the embedded `3·power ≥ total`. -/
theorem one_third_ge_iff (p t : Int) :
    ((p : ℚ) ≥ 1 / 3 * (t : ℚ)) ↔ 3 * p ≥ t := by
  rw [show (1 / 3 : ℚ) * (t : ℚ) = (t : ℚ) / 3 by ring,
    ge_iff_le, div_le_iff₀ (by norm_num : (0 : ℚ) < 3)]
  constructor
  · intro h
    have h2 : ((t : Int) : ℚ) ≤ ((3 * p : Int) : ℚ) := by
      push_cast
      linarith
    exact_mod_cast h2
  · intro h
    have h2 : ((t : Int) : ℚ) ≤ ((3 * p : Int) : ℚ) := by
      exact_mod_cast h
    push_cast at h2
    linarith

/-- C2: for a stored election, `has_concluded` returns the election iff the
election's output topology equals the validator set effective at the given
height, the committed votes are strictly below two thirds of the total
voting power, and committed plus newly delivered votes reach two thirds. -/
theorem has_concluded_iff (s : State) (election_id : String)
    (current_votes : List Tx) (height : Option Nat) (e : Tx)
    (he : s.get_transaction election_id = some e) :
    ValidatorElection.has_concluded s election_id current_votes height =
        some e ↔
      (ValidatorElection.is_same_topology
          (ValidatorElection.get_validators_dict s height) e.outputs = true ∧
        ((ValidatorElection.get_commited_votes s e
            (ValidatorElection.to_public_key e.id) : ℚ) <
          2 / 3 *
            (sumValues (ValidatorElection.get_validators_dict s height) : ℚ)) ∧
        ((ValidatorElection.get_commited_votes s e
            (ValidatorElection.to_public_key e.id) : ℚ) +
            (ValidatorElection.count_votes
              (ValidatorElection.to_public_key e.id) current_votes : ℚ) ≥
          2 / 3 *
            (sumValues (ValidatorElection.get_validators_dict s height) : ℚ))) := by
  unfold ValidatorElection.has_concluded
  rw [he]
  dsimp only
  rw [two_thirds_lt_iff _ (sumValues (ValidatorElection.get_validators_dict s height)),
    two_thirds_ge_iff _ _ (sumValues (ValidatorElection.get_validators_dict s height))]
  split_ifs with h1 h2
  · exact iff_of_true rfl ⟨h1, h2.1, h2.2⟩
  · exact iff_of_false (by simp) (fun hr => h2 ⟨hr.2.1, hr.2.2⟩)
  · exact iff_of_false (by simp) (fun hr => h1 hr.1)

def c2_election : Tx :=
  { id := "aa", operation := VALIDATOR_ELECTION_OP, inputs := [⟨none, ["A"]⟩],
    outputs := [⟨["A"], 10⟩], asset_id := none,
    asset_data := some ⟨"Q", 1, "n"⟩, metadata := none }

def c2_vote : Tx :=
  { id := "bb", operation := VALIDATOR_ELECTION_VOTE_OP,
    inputs := [⟨some ("aa", 0), ["A"]⟩],
    outputs := [⟨[ValidatorElection.to_public_key "aa"], 10⟩],
    asset_id := some "aa", asset_data := none, metadata := none }

/-- Storage holding the election `aa` under genesis validator set
`[(A, 10)]`. -/
def c2_state : State :=
  { txs := [c2_election], blocks := [],
    snapshots := [⟨0, [⟨"A", 10⟩], "genesis"⟩], pre_commit := none }

/-- Witness for C2: the conclusion rule, instantiated on a stored election
with one full-power vote delivered in the block. -/
theorem has_concluded_iff_witness :
    ValidatorElection.has_concluded c2_state "aa" [c2_vote] (some 1) =
        some c2_election ↔
      (ValidatorElection.is_same_topology
          (ValidatorElection.get_validators_dict c2_state (some 1))
          c2_election.outputs = true ∧
        ((ValidatorElection.get_commited_votes c2_state c2_election
            (ValidatorElection.to_public_key c2_election.id) : ℚ) <
          2 / 3 *
            (sumValues
              (ValidatorElection.get_validators_dict c2_state (some 1)) : ℚ)) ∧
        ((ValidatorElection.get_commited_votes c2_state c2_election
            (ValidatorElection.to_public_key c2_election.id) : ℚ) +
            (ValidatorElection.count_votes
              (ValidatorElection.to_public_key c2_election.id) [c2_vote] : ℚ) ≥
          2 / 3 *
            (sumValues
              (ValidatorElection.get_validators_dict c2_state (some 1)) : ℚ))) :=
  has_concluded_iff c2_state "aa" [c2_vote] (some 1) c2_election (by rfl)

/-- C3 (amended): with the earlier checks passing, the power check of
`ValidatorElection.validate` rejects with `InvalidPowerChange` exactly when
the proposed power is at least one third of the total voting power in exact
arithmetic; hence `power = ⌊total/3⌋` is rejected precisely when `3 ∣ total`,
while `power = ⌊total/3⌋ - 1` always passes the power check. -/
theorem validate_power_check (s : State) (self : Tx) (ctx : List Tx)
    (input0 : Input) (pk : String) (d : AssetData)
    (hdup1 : s.get_transaction self.id = none)
    (hdup2 : ctx.any (fun txn => txn.id == self.id) = false)
    (hin : self.inputs = [input0])
    (hown : input0.owners_before = [pk])
    (hd : self.asset_data = some d) :
    (ValidatorElection.validate s true self ctx =
        .error .invalidPowerChange ↔
      ((d.power : ℚ) ≥
        1 / 3 *
          (sumValues (ValidatorElection.get_validators_dict s none) : ℚ))) ∧
    (d.power = sumValues (ValidatorElection.get_validators_dict s none) / 3 →
      (ValidatorElection.validate s true self ctx =
          .error .invalidPowerChange ↔
        (3 : Int) ∣ sumValues (ValidatorElection.get_validators_dict s none))) ∧
    (d.power =
        sumValues (ValidatorElection.get_validators_dict s none) / 3 - 1 →
      ValidatorElection.validate s true self ctx ≠
        .error .invalidPowerChange) := by
  have hmain :
      ValidatorElection.validate s true self ctx =
          .error .invalidPowerChange ↔
        3 * d.power ≥
          sumValues (ValidatorElection.get_validators_dict s none) := by
    unfold ValidatorElection.validate
    rw [hdup1, hdup2, hin]
    rw [if_neg (by simp)]
    rw [if_neg (by simp)]
    dsimp only
    rw [hown]
    dsimp only
    rw [hd]
    dsimp only [Option.getD_some]
    split_ifs with hpow hprop htop
    · exact iff_of_true rfl hpow
    · exact iff_of_false (by simp) hpow
    · exact iff_of_false (by simp) hpow
    · exact iff_of_false (by simp) hpow
  refine ⟨?_, ?_, ?_⟩
  · rw [hmain,
      one_third_ge_iff d.power
        (sumValues (ValidatorElection.get_validators_dict s none))]
  · intro hfloor
    rw [hmain, hfloor]
    omega
  · intro hfloor
    rw [ne_eq, hmain, hfloor]
    omega

def c3_tx : Tx :=
  { id := "e3", operation := VALIDATOR_ELECTION_OP, inputs := [⟨none, ["A"]⟩],
    outputs := [⟨["A"], 10⟩], asset_id := none,
    asset_data := some ⟨"Q", 3, "n"⟩, metadata := none }

/-- Storage with the single validator `A` of power 10 (total power 10, not
divisible by 3). -/
def c3_state : State :=
  { txs := [], blocks := [], snapshots := [⟨0, [⟨"A", 10⟩], "genesis"⟩],
    pre_commit := none }

/-- Counterexample for C3 as stated: under total power 10 the election
proposing `power = ⌊10/3⌋ = 3` is NOT rejected with `InvalidPowerChange` —
`validate` accepts it outright (3 is strictly below 10/3). -/
theorem validate_power_floor_counterexample :
    sumValues (ValidatorElection.get_validators_dict c3_state none) = 10 ∧
    c3_tx.asset_data = some ⟨"Q", 10 / 3, "n"⟩ ∧
    ValidatorElection.validate c3_state true c3_tx [] = Except.ok c3_tx :=
  ⟨by decide, by rfl, by rfl⟩

def c3_tx4 : Tx :=
  { id := "e4", operation := VALIDATOR_ELECTION_OP, inputs := [⟨none, ["A"]⟩],
    outputs := [⟨["A"], 10⟩], asset_id := none,
    asset_data := some ⟨"Q", 4, "n"⟩, metadata := none }

/-- Witness for the amended C3: under total power 10, proposing power 4
(which is at least 10/3) is rejected with `InvalidPowerChange`, and
`⌊10/3⌋ - 1 = 2` passes the power check. -/
theorem validate_power_check_witness :
    (ValidatorElection.validate c3_state true c3_tx4 [] =
        .error .invalidPowerChange ↔
      ((4 : Int) : ℚ) ≥
        1 / 3 *
          (sumValues (ValidatorElection.get_validators_dict c3_state none) : ℚ)) :=
  (validate_power_check c3_state c3_tx4 [] ⟨none, ["A"]⟩ "A" ⟨"Q", 4, "n"⟩
      (by rfl) (by rfl) (by rfl) (by rfl) (by rfl)).1

/-- The specification's description of vote counting, used as the
refinement reference for C5: the sum of the amounts of exactly those
outputs of VALIDATOR_ELECTION_VOTE transactions whose `public_keys` list
is exactly `[election_pk]`. -/
def countVotesSpec (election_pk : String) (transactions : List Tx) : Nat :=
  (transactions.map
    (fun txn =>
      if txn.operation = VALIDATOR_ELECTION_VOTE_OP then
        ((txn.outputs.filter
            (fun o => o.public_keys = [election_pk])).map
          (fun o => o.amount)).sum
      else 0)).sum

/-- The inner output fold of `count_votes` totals the filtered amounts. -/
theorem count_votes_outputs (pk : String) (outs : List Output) (acc : Nat) :
    outs.foldl
        (fun v output =>
          if output.public_keys.length = 1 ∧ output.public_keys = [pk] then
            v + output.amount
          else v)
        acc =
      acc +
        ((outs.filter (fun o => o.public_keys = [pk])).map
          (fun o => o.amount)).sum := by
  induction outs generalizing acc with
  | nil => simp
  | cons o outs ih =>
    by_cases hpk : o.public_keys = [pk]
    · have hlen : o.public_keys.length = 1 := by rw [hpk]; rfl
      have hfil : (o :: outs).filter (fun x => x.public_keys = [pk]) =
          o :: outs.filter (fun x => x.public_keys = [pk]) := by
        simp [List.filter_cons, hpk]
      rw [List.foldl_cons, if_pos ⟨hlen, hpk⟩, ih, hfil, List.map_cons,
        List.sum_cons]
      omega
    · have hfil : (o :: outs).filter (fun x => x.public_keys = [pk]) =
          outs.filter (fun x => x.public_keys = [pk]) := by
        simp [List.filter_cons, hpk]
      rw [List.foldl_cons, if_neg (fun hand => hpk hand.2), ih, hfil]

/-- The outer transaction fold of `count_votes` totals per-transaction
tallies. -/
theorem count_votes_foldl (pk : String) (txns : List Tx) (acc : Nat) :
    txns.foldl
        (fun votes txn =>
          if txn.operation = VALIDATOR_ELECTION_VOTE_OP then
            txn.outputs.foldl
              (fun v output =>
                if output.public_keys.length = 1 ∧
                    output.public_keys = [pk] then
                  v + output.amount
                else v)
              votes
          else votes)
        acc =
      acc + countVotesSpec pk txns := by
  induction txns generalizing acc with
  | nil => simp [countVotesSpec]
  | cons txn txns ih =>
    have hspec : countVotesSpec pk (txn :: txns) =
        (if txn.operation = VALIDATOR_ELECTION_VOTE_OP then
          ((txn.outputs.filter (fun o => o.public_keys = [pk])).map
            (fun o => o.amount)).sum
        else 0) + countVotesSpec pk txns := by
      simp [countVotesSpec]
    by_cases hop : txn.operation = VALIDATOR_ELECTION_VOTE_OP
    · rw [List.foldl_cons, if_pos hop, count_votes_outputs, ih, hspec,
        if_pos hop]
      omega
    · rw [List.foldl_cons, if_neg hop, ih, hspec, if_neg hop]
      omega

/-- C5: `count_votes` sums the amounts of exactly those outputs of
VALIDATOR_ELECTION_VOTE transactions whose `public_keys` list is exactly
`[election_pk]`; an output carrying two public keys — one of them the
election key — contributes zero. -/
theorem count_votes_exact (pk : String) (txns : List Tx) :
    ValidatorElection.count_votes pk txns = countVotesSpec pk txns ∧
    ∀ (t : Tx) (o : Output), o.public_keys.length = 2 →
      pk ∈ o.public_keys →
      ValidatorElection.count_votes pk [{ t with outputs := o :: t.outputs }] =
        ValidatorElection.count_votes pk [t] := by
  constructor
  · simpa using count_votes_foldl pk txns 0
  · intro t o hlen _hmem
    have hne : ¬ o.public_keys = [pk] := by
      intro h
      rw [h] at hlen
      simp at hlen
    have h1 := count_votes_foldl pk [{ t with outputs := o :: t.outputs }] 0
    have h2 := count_votes_foldl pk [t] 0
    simp only [ValidatorElection.count_votes]
    rw [h1, h2]
    simp [countVotesSpec, List.filter_cons, hne]

def c5_vote : Tx :=
  { id := "v1", operation := VALIDATOR_ELECTION_VOTE_OP,
    inputs := [⟨some ("aa", 0), ["A"]⟩],
    outputs := [⟨["p"], 4⟩, ⟨["p", "q"], 5⟩],
    asset_id := some "aa", asset_data := none, metadata := none }

/-- Witness for C5: on a concrete vote with a one-key output of amount 4
and a two-key output of amount 5, counting agrees with the specification's
sum, and prepending another two-key output changes nothing. -/
theorem count_votes_exact_witness :
    ValidatorElection.count_votes "p" [c5_vote] = countVotesSpec "p" [c5_vote] ∧
    ValidatorElection.count_votes "p"
        [{ c5_vote with outputs := ⟨["p", "q"], 7⟩ :: c5_vote.outputs }] =
      ValidatorElection.count_votes "p" [c5_vote] :=
  ⟨(count_votes_exact "p" [c5_vote]).1,
   (count_votes_exact "p" [c5_vote]).2 c5_vote ⟨["p", "q"], 7⟩
      (by decide) (by decide)⟩

/-- C9: `get_status` returns CONCLUDED exactly when some snapshot carries
the election's id; otherwise it returns ONGOING when the latest
validator-change height is strictly below the height of the block holding
the election, and INCONCLUSIVE otherwise. -/
theorem get_status_characterisation (s : State) (self : Tx) (c : Snapshot)
    (bh : Nat) (hc : s.get_validator_change = some c)
    (hb : s.get_block_containing_tx self.id = some bh) :
    ((s.get_validators_by_election_id self.id).isSome = true ↔
      ∃ snap ∈ s.snapshots, snap.election_id = self.id) ∧
    ((s.get_validators_by_election_id self.id).isSome = true →
      ValidatorElection.get_status s self = ValidatorElection.CONCLUDED) ∧
    ((s.get_validators_by_election_id self.id).isSome = false →
      (ValidatorElection.get_status s self = ValidatorElection.ONGOING ↔
        c.height < bh) ∧
      (ValidatorElection.get_status s self = ValidatorElection.INCONCLUSIVE ↔
        bh ≤ c.height)) := by
  refine ⟨?_, ?_, ?_⟩
  · rw [State.get_validators_by_election_id, List.find?_isSome]
    simp
  · intro hcon
    unfold ValidatorElection.get_status
    rw [if_pos hcon]
  · intro hncon
    unfold ValidatorElection.get_status
    rw [if_neg (by simp [hncon]), hc, hb]
    simp only [Option.map_some', Option.getD_some]
    constructor
    · split_ifs with hge
      · constructor
        · intro habs
          exact absurd habs (by decide)
        · intro hlt
          omega
      · constructor
        · intro _
          omega
        · intro _
          rfl
    · split_ifs with hge
      · constructor
        · intro _
          omega
        · intro _
          rfl
      · constructor
        · intro habs
          exact absurd habs (by decide)
        · intro hle
          omega

/-- Storage for the status query: the election `aa` sits in the block at
height 3 and the only validator-set change is the genesis snapshot at
height 0 (which does not carry the election's id). -/
def c9_state : State :=
  { txs := [c2_election], blocks := [⟨3, "bh", ["aa"]⟩],
    snapshots := [⟨0, [⟨"A", 10⟩], "genesis"⟩], pre_commit := none }

/-- Witness for C9: with the latest change at height 0 and the election in
the block at height 3, the status is ONGOING. -/
theorem get_status_characterisation_witness :
    ValidatorElection.get_status c9_state c2_election =
        ValidatorElection.ONGOING ↔
      (⟨0, [⟨"A", 10⟩], "genesis"⟩ : Snapshot).height < 3 :=
  ((get_status_characterisation c9_state c2_election
      ⟨0, [⟨"A", 10⟩], "genesis"⟩ 3 (by rfl) (by rfl)).2.2 (by rfl)).1

/-- One unfolding step of the validator-update loop. -/
theorem gvu_loop_cons (s : State) (h : Nat)
    (votes : List (String × List Tx)) (txn : Tx) (rest : List Tx) :
    get_validator_update_loop s h votes (txn :: rest) =
      if txn.operation = VALIDATOR_ELECTION_VOTE_OP then
        match ValidatorElection.has_concluded s (txn.asset_id.getD "")
            ((dlookup votes (txn.asset_id.getD "")).getD [] ++ [txn])
            (some h) with
        | some election =>
          (s.store_validator_set (h + 1)
              ((new_validator_set (s.get_validators (some h))
                  [election.asset_data.getD default]).filter
                (fun v => 0 < v.voting_power)) election.id,
            [encode_validator
              (encode_pk_to_base16 (election.asset_data.getD default))])
        | none =>
          get_validator_update_loop s h
            (dictInsert votes (txn.asset_id.getD "")
              ((dlookup votes (txn.asset_id.getD "")).getD [] ++ [txn]))
            rest
      else get_validator_update_loop s h votes rest := rfl

/-- The validator-update loop returns at most one encoded update. -/
theorem gvu_loop_len (s : State) (h : Nat) (txns : List Tx) :
    ∀ votes, (get_validator_update_loop s h votes txns).2.length ≤ 1 := by
  induction txns with
  | nil =>
    intro votes
    simp [get_validator_update_loop]
  | cons txn rest ih =>
    intro votes
    rw [gvu_loop_cons]
    by_cases hop : txn.operation = VALIDATOR_ELECTION_VOTE_OP
    · rw [if_pos hop]
      rcases hcon : ValidatorElection.has_concluded s (txn.asset_id.getD "")
          ((dlookup votes (txn.asset_id.getD "")).getD [] ++ [txn])
          (some h) with _ | e
      · exact ih _
      · simp
    · rw [if_neg hop]
      exact ih _

/-- When the validator-update loop emits an update, the update comes from
the first vote whose election concludes: it is the stored election's
encoded proposal, the state gains the pruned snapshot at the next height
under the election's id, and any transactions delivered after that vote
are never read. -/
theorem gvu_loop_spec (s : State) (h : Nat) (txns : List Tx) :
    ∀ (votes : List (String × List Tx)) (s' : State) (u : EncodedValidator),
      get_validator_update_loop s h votes txns = (s', [u]) →
      (∀ txns2,
        get_validator_update_loop s h votes (txns ++ txns2) = (s', [u])) ∧
      ∃ eid evotes e,
        ValidatorElection.has_concluded s eid evotes (some h) = some e ∧
        u = encode_validator
          (encode_pk_to_base16 (e.asset_data.getD default)) ∧
        s' = s.store_validator_set (h + 1)
          ((new_validator_set (s.get_validators (some h))
              [e.asset_data.getD default]).filter
            (fun v => 0 < v.voting_power)) e.id := by
  induction txns with
  | nil =>
    intro votes s' u heq
    simp [get_validator_update_loop] at heq
  | cons txn rest ih =>
    intro votes s' u heq
    rw [gvu_loop_cons] at heq
    by_cases hop : txn.operation = VALIDATOR_ELECTION_VOTE_OP
    · rw [if_pos hop] at heq
      rcases hcon : ValidatorElection.has_concluded s (txn.asset_id.getD "")
          ((dlookup votes (txn.asset_id.getD "")).getD [] ++ [txn])
          (some h) with _ | e
      · rw [hcon] at heq
        obtain ⟨hall, hex⟩ := ih _ s' u heq
        refine ⟨fun txns2 => ?_, hex⟩
        rw [List.cons_append, gvu_loop_cons, if_pos hop, hcon]
        exact hall txns2
      · rw [hcon] at heq
        have heq2 :
            (s.store_validator_set (h + 1)
                ((new_validator_set (s.get_validators (some h))
                    [e.asset_data.getD default]).filter
                  (fun v => 0 < v.voting_power)) e.id,
              [encode_validator
                (encode_pk_to_base16 (e.asset_data.getD default))]) =
            (s', [u]) := heq
        rw [Prod.mk.injEq] at heq2
        obtain ⟨hs, hu⟩ := heq2
        injection hu with hu2 _
        refine ⟨fun txns2 => ?_, txn.asset_id.getD "",
          (dlookup votes (txn.asset_id.getD "")).getD [] ++ [txn], e, hcon,
          hu2.symm, hs.symm⟩
        rw [List.cons_append, gvu_loop_cons, if_pos hop, hcon]
        exact heq
    · rw [if_neg hop] at heq
      obtain ⟨hall, hex⟩ := ih _ s' u heq
      refine ⟨fun txns2 => ?_, hex⟩
      rw [List.cons_append, gvu_loop_cons, if_neg hop]
      exact hall txns2

/-- C6: `get_validator_update` lets only the first election (in the
delivered order of its votes) that satisfies the conclusion rule take
effect: the state gains exactly the snapshot at `new_height + 1` carrying
that election's id with every zero-or-negative-power entry pruned, the
single encoded update of that election's proposal is returned, and no
transaction delivered after the concluding vote is processed (the result
over any extension of the block is unchanged); in every case at most one
encoded update is returned. -/
theorem get_validator_update_first_conclusion (s : State) (h : Nat)
    (txns1 txns2 : List Tx) (s' : State) (u : EncodedValidator)
    (hone : ValidatorElection.get_validator_update s h txns1 = (s', [u])) :
    ValidatorElection.get_validator_update s h (txns1 ++ txns2) = (s', [u]) ∧
    (∀ txns : List Tx,
      (ValidatorElection.get_validator_update s h txns).2.length ≤ 1) ∧
    ∃ eid evotes e,
      ValidatorElection.has_concluded s eid evotes (some h) = some e ∧
      u = encode_validator (encode_pk_to_base16 (e.asset_data.getD default)) ∧
      s' = s.store_validator_set (h + 1)
        ((new_validator_set (s.get_validators (some h))
            [e.asset_data.getD default]).filter
          (fun v => 0 < v.voting_power)) e.id ∧
      ∀ v ∈ (new_validator_set (s.get_validators (some h))
          [e.asset_data.getD default]).filter
        (fun v => 0 < v.voting_power), 0 < v.voting_power := by
  obtain ⟨hall, eid, evotes, e, hcon, hu, hs⟩ :=
    gvu_loop_spec s h txns1 [] s' u hone
  refine ⟨hall txns2, fun txns => gvu_loop_len s h txns [], eid, evotes, e,
    hcon, hu, hs, ?_⟩
  intro v hv
  exact of_decide_eq_true (List.mem_filter.mp hv).2

/-- Witness for C6: the single full-power vote concludes the election
`aa`, the snapshot `[(A, 10), (Q, 1)]` is stored at height 2 under id
`aa`, the encoded update for `Q` is returned — and a duplicate concluding
vote appended after it is ignored. -/
theorem get_validator_update_first_conclusion_witness :
    ValidatorElection.get_validator_update c2_state 1 ([c2_vote] ++ [c2_vote]) =
      (c2_state.store_validator_set 2 [⟨"A", 10⟩, ⟨"Q", 1⟩] "aa",
        [⟨"Q", 1⟩]) :=
  (get_validator_update_first_conclusion c2_state 1 [c2_vote] [c2_vote]
      (c2_state.store_validator_set 2 [⟨"A", 10⟩, ⟨"Q", 1⟩] "aa") ⟨"Q", 1⟩
      (by rfl)).1

/-! ### Transaction serialization and the single-transaction validation
engine

The workers call `BigchainDB.is_valid_transaction`, the single-transaction
validation engine.  The engine lives outside the embedded source files and
is modelled from the specification: schema shape, canonical id, duplicate
check, input resolution against committed storage or the in-block context,
unspent check, fulfillment verification and amount conservation. -/

/-- Serialize a list with an element serializer. -/
def serList {α : Type} (f : α → String) (l : List α) : String :=
  (l.map f).foldl (fun a b => a ++ "(" ++ b ++ ")") ""

/-- Serialize an `Option` with an element serializer. -/
def serOpt {α : Type} (f : α → String) : Option α → String
  | none => "N"
  | some a => "S" ++ f a

/-- Serialize one input. -/
def serInput (i : Input) : String :=
  serOpt (fun r => r.1 ++ "#" ++ toString r.2) i.fulfills ++ "@" ++
    serList (fun k => k) i.owners_before

/-- Serialize one output. -/
def serOutput (o : Output) : String :=
  serList (fun k => k) o.public_keys ++ "$" ++ toString o.amount

/-- Serialize an election proposal. -/
def serAssetData (d : AssetData) : String :=
  d.public_key ++ "&" ++ toString d.power ++ "&" ++ d.node_id

/-- Modelled from the spec: the transaction id is the hash of the canonical
serialization with the `id` field cleared.  The external SHA3-256 is
modelled as an injective serialization that ignores the `id` field. -/
def serializeTx (t : Tx) : String :=
  "op:" ++ t.operation ++ ";in:" ++ serList serInput t.inputs ++
    ";out:" ++ serList serOutput t.outputs ++ ";asset:" ++
    serOpt (fun k => k) t.asset_id ++ ";data:" ++
    serOpt serAssetData t.asset_data ++ ";meta:" ++
    serOpt (fun k => k) t.metadata

/-- Give a transaction its derived id. -/
def withId (t : Tx) : Tx := { t with id := serializeTx t }

/-- CREATE-like operations have no prior outputs. -/
def isCreateLike (op : String) : Bool :=
  op == CREATE_OP || op == VALIDATOR_ELECTION_OP

/-- Modelled from the spec: operation-specific schema shape — a known
operation, non-empty inputs and outputs, recipients on every output, and
the asset reference matching the operation kind. -/
def schema_ok (tx : Tx) : Bool :=
  (tx.operation == CREATE_OP || tx.operation == TRANSFER_OP ||
      tx.operation == VALIDATOR_ELECTION_OP ||
      tx.operation == VALIDATOR_ELECTION_VOTE_OP) &&
    !tx.inputs.isEmpty && !tx.outputs.isEmpty &&
    tx.outputs.all (fun o => !o.public_keys.isEmpty) &&
    (if isCreateLike tx.operation then
      tx.asset_id == none && tx.inputs.all (fun i => i.fulfills == none)
    else
      tx.asset_id.isSome && tx.inputs.all (fun i => i.fulfills.isSome))

/-- The output a spend reference points at, resolved against a pool of
transactions (committed storage plus in-block context). -/
def output_at (pool : List Tx) (ref : String × Nat) : Option Output :=
  (pool.find? (fun t => t.id == ref.1)).bind (fun t => t.outputs[ref.2]?)

/-- Whether some transaction of the pool already consumes the referenced
output. -/
def spent_in (pool : List Tx) (ref : String × Nat) : Bool :=
  pool.any (fun t => t.inputs.any (fun i => i.fulfills == some ref))

/-- Modelled from the spec: an input must reference an existing, unspent
output, and its fulfillment must verify against the referenced condition —
the external Ed25519 verification is modelled as the signer set matching
the referenced output's recipients. -/
def inputOk (pool : List Tx) (i : Input) : Bool :=
  match i.fulfills with
  | none => false
  | some ref =>
    match output_at pool ref with
    | none => false
    | some o => !spent_in pool ref && i.owners_before == o.public_keys

/-- Total amount consumed by a list of inputs. -/
def inputAmounts (pool : List Tx) (inputs : List Input) : Nat :=
  (inputs.map (fun i =>
    (Option.map (fun o => o.amount) (i.fulfills.bind (output_at pool))).getD
      0)).sum

/-- Total amount carried by a list of outputs. -/
def sumOutputs (outs : List Output) : Nat :=
  (outs.map (fun o => o.amount)).sum

/-- Modelled from the spec: the single-transaction validation engine
`validate(tx, context) → tx | False` — schema, canonical id, no duplicate
in storage or context, inputs existing and unspent with verifying
fulfillments, and amount conservation; CREATE-like transactions have no
prior outputs to check. -/
def is_valid_transaction (store : List Tx) (tx : Tx) (context : List Tx) :
    Option Tx :=
  if ¬ schema_ok tx then none
  else if tx.id ≠ serializeTx tx then none
  else if (store ++ context).any (fun t => t.id == tx.id) then none
  else if isCreateLike tx.operation then some tx
  else
    if tx.inputs.all (fun i => inputOk (store ++ context) i) &&
        inputAmounts (store ++ context) tx.inputs == sumOutputs tx.outputs then
      some tx
    else none

/-! ### The validation worker -/

/-- The messages a `ValidationWorker` reads from its routing queue: an
indexed transaction, the `RESET` sentinel, or the `EXIT` sentinel. -/
inductive WMessage where
  | reset
  | exit
  | item (index : Nat) (transaction : Tx)
deriving DecidableEq

/-- `ValidationWorker.validate`: look up the in-worker context under the
transaction's `asset['id']` (falling back to the transaction's own id —
the source's `KeyError` fallback), run the engine against it, and append
an accepted transaction to the context.  The worker's state is its
`validated_transactions` defaultdict. -/
def ValidationWorker.validate (engine : Tx → List Tx → Option Tx)
    (validated_transactions : List (String × List Tx))
    (dict_transaction : Tx) :
    List (String × List Tx) × Option Tx :=
  match engine dict_transaction
      ((dlookup validated_transactions
        (dict_transaction.asset_id.getD dict_transaction.id)).getD []) with
  | some transaction =>
    (dictInsert validated_transactions
        (dict_transaction.asset_id.getD dict_transaction.id)
        ((dlookup validated_transactions
          (dict_transaction.asset_id.getD dict_transaction.id)).getD [] ++
          [transaction]),
      some transaction)
  | none => (validated_transactions, none)

/-- `ValidationWorker.run` over the queued message list: `RESET` clears the
context map (the constructor initialises the worker by the same `reset`,
so a fresh worker's state is `[]`), `EXIT` stops the loop, and an indexed
transaction is validated and its result emitted on the results queue. -/
def ValidationWorker.run (engine : Tx → List Tx → Option Tx)
    (validated_transactions : List (String × List Tx)) :
    List WMessage → List (Nat × Option Tx)
  | [] => []
  | WMessage.reset :: rest => ValidationWorker.run engine [] rest
  | WMessage.exit :: _ => []
  | WMessage.item index transaction :: rest =>
    (index,
      (ValidationWorker.validate engine validated_transactions
        transaction).2) ::
      ValidationWorker.run engine
        (ValidationWorker.validate engine validated_transactions
          transaction).1
        rest

/-- C8: for every engine and worker state, a `RESET` message clears the
whole per-asset context map: the results after the `RESET` are exactly the
results a fresh worker computes on the remaining messages. -/
theorem worker_reset_forgets (engine : Tx → List Tx → Option Tx)
    (w : List (String × List Tx)) (msgs1 msgs2 : List WMessage)
    (hexit : ¬ WMessage.exit ∈ msgs1) :
    ValidationWorker.run engine w (msgs1 ++ WMessage.reset :: msgs2) =
      ValidationWorker.run engine w msgs1 ++
        ValidationWorker.run engine [] msgs2 := by
  revert hexit
  induction msgs1 generalizing w with
  | nil =>
    intro _
    simp [ValidationWorker.run]
  | cons m rest ih =>
    intro hexit
    have hexit' : ¬ WMessage.exit ∈ rest := fun hm =>
      hexit (List.mem_cons_of_mem m hm)
    cases m with
    | reset => exact ih [] hexit'
    | exit => exact absurd (List.mem_cons_self _ _) hexit
    | item i t =>
      simp only [List.cons_append, ValidationWorker.run]
      exact congrArg _ (ih _ hexit')

def c7_create_body : Tx :=
  { id := "", operation := CREATE_OP, inputs := [⟨none, ["P58"]⟩],
    outputs := [⟨["P58"], 10⟩], asset_id := none, asset_data := none,
    metadata := none }

/-- The CREATE of amount 10 owned by `P58`. -/
def c7_create : Tx := withId c7_create_body

def c7_transfer_body : Tx :=
  { id := "", operation := TRANSFER_OP,
    inputs := [⟨some (c7_create.id, 0), ["P58"]⟩],
    outputs := [⟨["P58"], 10⟩], asset_id := some c7_create.id,
    asset_data := none, metadata := none }

/-- The TRANSFER spending `c7_create:0`. -/
def c7_transfer : Tx := withId c7_transfer_body

def c7_double_spend_body : Tx :=
  { id := "", operation := TRANSFER_OP,
    inputs := [⟨some (c7_create.id, 0), ["P58"]⟩],
    outputs := [⟨["P58"], 10⟩], asset_id := some c7_create.id,
    asset_data := none, metadata := some "again" }

/-- A second TRANSFER spending the same output `c7_create:0`. -/
def c7_double_spend : Tx := withId c7_double_spend_body

/-- The engine as a worker sees it: the validation engine over empty
committed storage. -/
def c7_engine : Tx → List Tx → Option Tx :=
  fun tx context => is_valid_transaction [] tx context

set_option maxRecDepth 8192 in
/-- C7: within one round, a worker accepts the CREATE at index 0, accepts
the dependent TRANSFER at index 10 using the in-worker context, and
rejects the second spend of the same output at index 20. -/
theorem worker_causal_chain :
    ValidationWorker.run c7_engine []
        [WMessage.item 0 c7_create, WMessage.item 10 c7_transfer,
          WMessage.item 20 c7_double_spend, WMessage.exit] =
      [(0, some c7_create), (10, some c7_transfer), (20, none)] := by
  rfl

set_option maxRecDepth 8192 in
/-- Witness for C8: after the causal-chain round, a `RESET` makes the
worker accept the resubmitted CREATE and TRANSFER again. -/
theorem worker_reset_forgets_witness :
    ValidationWorker.run c7_engine []
        ([WMessage.item 0 c7_create, WMessage.item 10 c7_transfer,
            WMessage.item 20 c7_double_spend] ++
          WMessage.reset ::
            [WMessage.item 0 c7_create, WMessage.item 5 c7_transfer]) =
      ValidationWorker.run c7_engine []
          [WMessage.item 0 c7_create, WMessage.item 10 c7_transfer,
            WMessage.item 20 c7_double_spend] ++
        ValidationWorker.run c7_engine []
          [WMessage.item 0 c7_create, WMessage.item 5 c7_transfer] :=
  worker_reset_forgets c7_engine []
    [WMessage.item 0 c7_create, WMessage.item 10 c7_transfer,
      WMessage.item 20 c7_double_spend]
    [WMessage.item 0 c7_create, WMessage.item 5 c7_transfer]
    (by decide)

/-! ### The parallel validator coordinator -/

/-- A hexadecimal digit's value (Python `int(_, 16)` digit step; a
non-hex character cannot occur in a transaction id). -/
def hexDigitVal (c : Char) : Nat :=
  if '0' ≤ c ∧ c ≤ '9' then c.toNat - '0'.toNat
  else if 'a' ≤ c ∧ c ≤ 'f' then c.toNat - 'a'.toNat + 10
  else if 'A' ≤ c ∧ c ≤ 'F' then c.toNat - 'A'.toNat + 10
  else 0

/-- Python `int(id, 16)`: the id read as a hexadecimal number. -/
def hexVal (s : String) : Nat :=
  s.data.foldl (fun n c => 16 * n + hexDigitVal c) 0

/-- The coordinator's state: the worker count, the monotonically increasing
submission index, and the per-worker routing queues.  (The raw bytes of a
submission are decoded by the external `decode_transaction` before
routing; transactions here are already decoded.) -/
structure PVState where
  number_of_workers : Nat
  transaction_index : Nat
  routing_queues : List (List (Nat × Tx))
deriving DecidableEq

/-- A freshly constructed `ParallelValidator`. -/
def ParallelValidator.init (number_of_workers : Nat) : PVState :=
  ⟨number_of_workers, 0, List.replicate number_of_workers []⟩

/-- `ParallelValidator.validate`: tag the transaction with the current
submission index, enqueue it on worker `int(id, 16) % W`, and advance the
index. -/
def ParallelValidator.validate (s : PVState) (tx : Tx) : PVState :=
  { s with
    routing_queues :=
      s.routing_queues.set (hexVal tx.id % s.number_of_workers)
        ((s.routing_queues.getD (hexVal tx.id % s.number_of_workers) []) ++
          [(s.transaction_index, tx)]),
    transaction_index := s.transaction_index + 1 }

/-- One round of submissions. -/
def ParallelValidator.validateAll (s : PVState) (txs : List Tx) : PVState :=
  txs.foldl ParallelValidator.validate s

/-- The coordinator's result assembly: place each `(index, result)` pair
read off the results queue into its slot of the buffer. -/
def fillBuffer (buffer : List (Option Tx))
    (received : List (Nat × Option Tx)) : List (Option Tx) :=
  received.foldl (fun b p => b.set p.1 p.2) buffer

/-- `ParallelValidator.result`: allocate `[None] * transaction_index`,
read exactly `transaction_index` pairs from the shared results queue —
`received` models their arrival (completion) order — fill the buffer, and
reset the round (the index returns to 0; the broadcast `RESET` sentinel's
effect on workers is `ValidationWorker.run`'s `reset` case). -/
def ParallelValidator.result (s : PVState)
    (received : List (Nat × Option Tx)) : List (Option Tx) × PVState :=
  (fillBuffer (List.replicate s.transaction_index none) received,
    { s with transaction_index := 0 })

/-- Submitting advances the submission index by one per transaction. -/
theorem validateAll_index (txs : List Tx) :
    ∀ s : PVState, (ParallelValidator.validateAll s txs).transaction_index =
      s.transaction_index + txs.length := by
  induction txs with
  | nil =>
    intro s
    simp [ParallelValidator.validateAll]
  | cons t l ih =>
    intro s
    rw [show ParallelValidator.validateAll s (t :: l) =
        ParallelValidator.validateAll (ParallelValidator.validate s t) l
      from rfl, ih]
    simp only [ParallelValidator.validate, List.length_cons]
    omega

/-- Filling slots preserves the buffer length. -/
theorem fillBuffer_length (received : List (Nat × Option Tx)) :
    ∀ buffer : List (Option Tx),
      (fillBuffer buffer received).length = buffer.length := by
  induction received with
  | nil =>
    intro buffer
    rfl
  | cons p l ih =>
    intro buffer
    rw [show fillBuffer buffer (p :: l) = fillBuffer (buffer.set p.1 p.2) l
      from rfl, ih, List.length_set]

/-- Slots whose index never arrives are untouched. -/
theorem fillBuffer_get_of_not_mem (received : List (Nat × Option Tx))
    (j : Nat) :
    ∀ buffer : List (Option Tx), (∀ p ∈ received, p.1 ≠ j) →
      (fillBuffer buffer received)[j]? = buffer[j]? := by
  induction received with
  | nil =>
    intro buffer _
    rfl
  | cons p l ih =>
    intro buffer h
    rw [show fillBuffer buffer (p :: l) = fillBuffer (buffer.set p.1 p.2) l
      from rfl, ih _ (fun q hq => h q (List.mem_cons_of_mem p hq)),
      List.getElem?_set_ne (h p (List.mem_cons_self p l))]

/-- A slot holds the value of its unique arrival. -/
theorem fillBuffer_get_of_split (l1 l2 : List (Nat × Option Tx)) (j : Nat)
    (v : Option Tx) (buffer : List (Option Tx)) (hj : j < buffer.length)
    (h2 : ∀ p ∈ l2, p.1 ≠ j) :
    (fillBuffer buffer (l1 ++ (j, v) :: l2))[j]? = some v := by
  rw [fillBuffer, List.foldl_append]
  rw [show List.foldl (fun b p => b.set p.1 p.2)
        (List.foldl (fun b p => b.set p.1 p.2) buffer l1) ((j, v) :: l2) =
      fillBuffer ((fillBuffer buffer l1).set j v) l2 from rfl]
  rw [fillBuffer_get_of_not_mem l2 j _ h2,
    List.getElem?_set_self (by rw [fillBuffer_length]; exact hj)]

/-- C1: after a round of `N` submissions (indices `0 .. N-1`), whatever
order the workers' `(index, outcome)` pairs arrive in (any permutation of
the submitted indices with their outcomes), `result` returns a vector of
length exactly `N` whose slot at each submission index holds that
transaction's outcome — the transaction on acceptance, the falsy `None`
on rejection. -/
theorem parallel_result_order (w : Nat) (txs : List Tx)
    (f : Nat → Option Tx) (received : List (Nat × Option Tx))
    (hperm : received.Perm
      ((List.range txs.length).map (fun i => (i, f i)))) :
    (ParallelValidator.validateAll (ParallelValidator.init w)
        txs).transaction_index = txs.length ∧
    (ParallelValidator.result
        (ParallelValidator.validateAll (ParallelValidator.init w) txs)
        received).1.length = txs.length ∧
    ∀ i, i < txs.length →
      (ParallelValidator.result
          (ParallelValidator.validateAll (ParallelValidator.init w) txs)
          received).1[i]? = some (f i) := by
  have hidx : (ParallelValidator.validateAll (ParallelValidator.init w)
      txs).transaction_index = txs.length := by
    rw [validateAll_index]
    simp [ParallelValidator.init]
  refine ⟨hidx, ?_, ?_⟩
  · simp only [ParallelValidator.result, hidx]
    rw [fillBuffer_length, List.length_replicate]
  · intro i hi
    simp only [ParallelValidator.result, hidx]
    have hmem : (i, f i) ∈ received :=
      hperm.mem_iff.mpr (List.mem_map.mpr ⟨i, List.mem_range.mpr hi, rfl⟩)
    obtain ⟨l1, l2, hsplit⟩ := List.append_of_mem hmem
    have hmapfst : (received.map Prod.fst).Perm (List.range txs.length) := by
      have hp := hperm.map Prod.fst
      rwa [List.map_map,
        show Prod.fst ∘ (fun i => (i, f i)) = fun i => i from rfl,
        show (List.range txs.length).map (fun i => i) =
          List.range txs.length from List.map_id _] at hp
    have hnodup : (received.map Prod.fst).Nodup :=
      hmapfst.nodup_iff.mpr (List.nodup_range txs.length)
    have h2 : ∀ p ∈ l2, p.1 ≠ i := by
      intro p hp hpe
      rw [hsplit, List.map_append, List.map_cons] at hnodup
      have hcons := List.Nodup.of_append_right hnodup
      have hni := (List.nodup_cons.mp hcons).1
      have hmm : p.1 ∈ l2.map Prod.fst := List.mem_map_of_mem Prod.fst hp
      rw [hpe] at hmm
      exact hni hmm
    rw [hsplit]
    exact fillBuffer_get_of_split l1 l2 i (f i) _
      (by rw [List.length_replicate]; exact hi) h2

def c1_t0 : Tx :=
  { id := "0", operation := CREATE_OP, inputs := [⟨none, ["P58"]⟩],
    outputs := [⟨["P58"], 1⟩], asset_id := none, asset_data := none,
    metadata := none }

def c1_t1 : Tx :=
  { id := "1", operation := CREATE_OP, inputs := [⟨none, ["P58"]⟩],
    outputs := [⟨["P58"], 1⟩], asset_id := none, asset_data := none,
    metadata := none }

/-- The round's outcome per submission index: index 0 accepted, index 1
rejected. -/
def c1_f : Nat → Option Tx := fun i => if i = 0 then some c1_t0 else none

/-- The workers' results arriving in reverse completion order. -/
def c1_received : List (Nat × Option Tx) := [(1, none), (0, some c1_t0)]

/-- Witness for C1: with two submissions whose results arrive in reversed
order, the result vector has length 2 and holds each outcome at its
submission index. -/
theorem parallel_result_order_witness :
    (ParallelValidator.result
        (ParallelValidator.validateAll (ParallelValidator.init 2)
          [c1_t0, c1_t1]) c1_received).1[0]? = some (some c1_t0) ∧
    (ParallelValidator.result
        (ParallelValidator.validateAll (ParallelValidator.init 2)
          [c1_t0, c1_t1]) c1_received).1[1]? = some none ∧
    (ParallelValidator.result
        (ParallelValidator.validateAll (ParallelValidator.init 2)
          [c1_t0, c1_t1]) c1_received).1.length = 2 :=
  ⟨(parallel_result_order 2 [c1_t0, c1_t1] c1_f c1_received
      (by decide)).2.2 0 (by decide),
   (parallel_result_order 2 [c1_t0, c1_t1] c1_f c1_received
      (by decide)).2.2 1 (by decide),
   (parallel_result_order 2 [c1_t0, c1_t1] c1_f c1_received
      (by decide)).2.1⟩
